import Mathlib

/-!
Shallow embedding of the pluginperf batch-benchmark tooling
(`tools/test_all_plugins.py`, `tools/test_preset_folder.py`,
`tools/validate_presets.py`, `tools/run_measure.py`).

Files are modelled as optional parsed contents (`none` = file missing),
process behaviour as a poll function from poll-tick index to the exit
code observed at that tick (`none` = still running), and wall-clock time
as rational seconds with the supervisor's fixed 0.5 s poll interval.
-/

namespace PlugPerf

/-! ### Result rows and `load_results` (test_all_plugins.py, lines 182-210)

A `Row` is one parsed CSV record of the measurement tool's output file,
restricted to the fields `load_results` reads.  Numeric fields are
rationals (the Python floats of interest are exact small decimals). -/

structure Row where
  plugin_name : String
  format : String
  channels : String
  bit_depth : String
  dsp_load_pct : ℚ
  cv_pct : ℚ
deriving DecidableEq

structure Summary where
  plugin_name : String
  format : String
  channels : String
  bit_depth : String
  buffer_count : ℕ
  mean_dsp_load : ℚ
  mean_cv : ℚ
  rows : List Row
deriving DecidableEq

/-- `load_results` (test_all_plugins.py lines 182-210): `none` input models a
missing output file; a present file is its parsed row list.  Missing file or
zero rows yield `none`; otherwise the summary holds the arithmetic means of
`dsp_load_pct` and `cv_pct` over all rows. -/
def load_results : Option (List Row) → Option Summary
  | none => none
  | some [] => none
  | some (r0 :: rest) =>
    let rows := r0 :: rest
    some { plugin_name := r0.plugin_name
           format := r0.format
           channels := r0.channels
           bit_depth := r0.bit_depth
           buffer_count := rows.length
           mean_dsp_load := (rows.map Row.dsp_load_pct).sum / rows.length
           mean_cv := (rows.map Row.cv_pct).sum / rows.length
           rows := rows }

/-! ### Run supervisor (`test_plugin`, test_all_plugins.py lines 92-180)

The monitor loop polls the child every 0.5 s; at poll tick `k` the elapsed
wall-clock time is `k * 0.5` seconds.  `poll k = none` means the process is
still running at tick `k`; `poll k = some c` means `process.poll()` returns
exit code `c` there.  If elapsed time exceeds 300 s while still running, the
child is killed and the outcome is `(False, "Timeout")`. -/

def timeoutSecs : ℚ := 300

def pollIntervalSecs : ℚ := 1 / 2

def elapsedAt (k : ℕ) : ℚ := k * pollIntervalSecs

structure MonRes where
  killed : Bool
  success : Bool
  errMsg : Option String
deriving DecidableEq

def monitorGo (poll : ℕ → Option ℤ) (stderrText : String) : ℕ → ℕ → MonRes
  | 0, _ => ⟨true, false, some "Timeout"⟩
  | fuel + 1, k =>
    match poll k with
    | some code =>
      if code = 0 then ⟨false, true, none⟩
      else ⟨false, false, some (if stderrText = "" then "Unknown error" else stderrText)⟩
    | none =>
      if timeoutSecs < elapsedAt k then ⟨true, false, some "Timeout"⟩
      else monitorGo poll stderrText fuel (k + 1)

/-- Enough fuel that the loop always resolves: at tick 601 the elapsed time
is 300.5 s > 300 s, so a still-running process is killed no later than
that tick. -/
def monitorFuel : ℕ := 602

/-- `test_plugin` (test_all_plugins.py lines 92-180), reduced to its outcome:
whether the child was killed, the success flag, and the error string of the
returned pair. -/
def test_plugin (poll : ℕ → Option ℤ) (stderrText : String) : MonRes :=
  monitorGo poll stderrText monitorFuel 0

/-! ### Batch loop of `main` (test_all_plugins.py lines 328-363) -/

/-- The external behaviour of one subject: its process poll function, its
captured stderr text, and the state of its output file when
`load_results` reads it. -/
structure SubjBehavior where
  poll : ℕ → Option ℤ
  stderrText : String
  fileRows : Option (List Row)

structure BatchState where
  tested : List String
  successful : List (String × Summary)
  failed : List (String × String)
deriving DecidableEq

def initBatch : BatchState := ⟨[], [], []⟩

/-- The subject loop of `main` (test_all_plugins.py lines 328-363).  The
`successful` and `failed` dicts are modelled as association lists (keys are
distinct in any real batch, since discovery lists a directory).  On a
process-level failure the loop breaks unless `skipErrors`; a parse failure
(`load_results` returning `none`) records the subject as failed but does
not break. -/
def runBatch (skipErrors : Bool) : List (String × SubjBehavior) → BatchState → BatchState
  | [], st => st
  | (name, b) :: rest, st =>
    let st1 : BatchState := { st with tested := st.tested ++ [name] }
    let r := test_plugin b.poll b.stderrText
    if r.success then
      match load_results b.fileRows with
      | some data =>
        runBatch skipErrors rest { st1 with successful := st1.successful ++ [(name, data)] }
      | none =>
        runBatch skipErrors rest
          { st1 with failed := st1.failed ++ [(name, "Could not parse results")] }
    else
      let st2 : BatchState := { st1 with failed := st1.failed ++ [(name, r.errMsg.getD "")] }
      if skipErrors then runBatch skipErrors rest st2 else st2

/-! ### CSV merger (`merge_csv_results`, test_preset_folder.py lines 103-135)

A CSV file is modelled as `Option (List (List String))`: `none` = the file
does not exist, `some rows` = its parsed row list (each row a cell list;
`some []` = an empty file).  The subject identifier (the file stem with the
`_benchmark` tag removed) is carried alongside each file. -/

/-- The loop body of `merge_csv_results`: fold over the input files carrying
the optional header (set by the first existing non-empty file) and the
accumulated `all_rows` list. -/
def mergeGo : List (String × Option (List (List String))) → Option (List String) →
    List (List String) → List (List String)
  | [], _, acc => acc
  | (name, f) :: rest, hdr, acc =>
    match f with
    | none => mergeGo rest hdr acc
    | some [] => mergeGo rest hdr acc
    | some (r0 :: rs) =>
      match hdr with
      | none =>
        let h := r0 ++ ["preset_name", "preset_category"]
        mergeGo rest (some h) ((acc ++ [h]) ++ rs.map (fun row => row ++ [name, ""]))
      | some h => mergeGo rest (some h) (acc ++ rs.map (fun row => row ++ [name, ""]))

/-- `merge_csv_results` (test_preset_folder.py lines 103-135): the `all_rows`
list written to the merged CSV. -/
def merge_csv_results (files : List (String × Option (List (List String)))) :
    List (List String) :=
  mergeGo files none []

/-- The "Total benchmark runs" count printed by `merge_csv_results`:
`len(all_rows) - 1` as a Python integer. -/
def totalBenchmarkRuns (files : List (String × Option (List (List String)))) : ℤ :=
  (merge_csv_results files).length - 1

/-- The data rows (all rows after the header row) of one input file; a
missing or empty file contributes none. -/
def dataRowsOf : Option (List (List String)) → List (List String)
  | none => []
  | some [] => []
  | some (_ :: rs) => rs

/-- The header row the merger emits: the first row of the first existing
non-empty file, extended with the two added columns. -/
def firstHeaderRow : List (String × Option (List (List String))) → Option (List String)
  | [] => none
  | (_, f) :: rest =>
    match f with
    | none => firstHeaderRow rest
    | some [] => firstHeaderRow rest
    | some (r0 :: _) => some (r0 ++ ["preset_name", "preset_category"])

/-- All merged data rows: for each file in order, its data rows extended with
the subject identifier and an empty category cell. -/
def mergedDataRows (files : List (String × Option (List (List String)))) :
    List (List String) :=
  (files.map (fun p => (dataRowsOf p.2).map (fun row => row ++ [p.1, ""]))).flatten

/-! ### Validation pipeline (`validate_preset`, validate_presets.py lines 31-79)

The verifier's combined stdout+stderr text is modelled as a `List Char`.
The two regular expressions of the source are literal-text patterns followed
by a digit group, embedded as explicit scanners with Python `re.search`
semantics (leftmost match; the digit group is the maximal digit run at the
match site, since in both patterns no digit can follow the group). -/

/-- Strip the literal `pat` from the front of `s`, returning the remainder. -/
def dropLit : List Char → List Char → Option (List Char)
  | [], s => some s
  | _ :: _, [] => none
  | p :: ps, c :: cs => if c = p then dropLit ps cs else none

/-- Value of a digit run, as Python `int` of the matched group. -/
def digitsToNat (ds : List Char) : ℕ :=
  ds.foldl (fun a c => a * 10 + (c.toNat - 48)) 0

/-- Literal text before the digit group of `Applied (\d+) parameters`. -/
def appliedPat : List Char := "Applied ".toList

/-- Literal text after the digit group of `Applied (\d+) parameters`. -/
def appliedTail : List Char := " parameters".toList

/-- Literal text before the digit group of
`Total parameters in preset: (\d+)`. -/
def totalPat : List Char := "Total parameters in preset: ".toList

/-- Try `Applied (\d+) parameters` anchored at the head of `s`. -/
def matchAppliedAt (s : List Char) : Option ℕ :=
  match dropLit appliedPat s with
  | none => none
  | some s1 =>
    if (s1.takeWhile Char.isDigit).isEmpty then none
    else
      match dropLit appliedTail (s1.dropWhile Char.isDigit) with
      | none => none
      | some _ => some (digitsToNat (s1.takeWhile Char.isDigit))

/-- `re.search` for `Applied (\d+) parameters`: leftmost match. -/
def searchApplied : List Char → Option ℕ
  | [] => none
  | c :: cs =>
    match matchAppliedAt (c :: cs) with
    | some n => some n
    | none => searchApplied cs

/-- Try `Total parameters in preset: (\d+)` anchored at the head of `s`. -/
def matchTotalAt (s : List Char) : Option ℕ :=
  match dropLit totalPat s with
  | none => none
  | some s1 =>
    if (s1.takeWhile Char.isDigit).isEmpty then none
    else some (digitsToNat (s1.takeWhile Char.isDigit))

/-- `re.search` for `Total parameters in preset: (\d+)`: leftmost match. -/
def searchTotal : List Char → Option ℕ
  | [] => none
  | c :: cs =>
    match matchTotalAt (c :: cs) with
    | some n => some n
    | none => searchTotal cs

/-- Python's `pat in s` substring test. -/
def containsPat (pat : List Char) : List Char → Bool
  | [] => (dropLit pat []).isSome
  | c :: cs => (dropLit pat (c :: cs)).isSome || containsPat pat cs

/-- Python's `s.split('\n')`. -/
def splitLines : List Char → List (List Char)
  | [] => [[]]
  | c :: cs =>
    if c = '\n' then [] :: splitLines cs
    else
      match splitLines cs with
      | [] => [[c]]
      | l :: ls => (c :: l) :: ls

/-- Python's `"; ".join(lines)`. -/
def joinSemi : List (List Char) → List Char
  | [] => []
  | [l] => l
  | l :: ls => l ++ "; ".toList ++ joinSemi ls

/-- A line carries an error marker: `'ERROR' in line or 'Failed' in line`. -/
def hasErrMarker (l : List Char) : Bool :=
  containsPat "ERROR".toList l || containsPat "Failed".toList l

structure ValidationOutcome where
  success : Bool
  applied : ℕ
  total : ℕ
  errMsg : List Char
deriving DecidableEq

/-- `validate_preset` (validate_presets.py lines 31-79), as a function of the
combined output text (`result.stdout + result.stderr`). -/
def validate_preset (output : List Char) : ValidationOutcome :=
  match searchApplied output with
  | some applied =>
    let total := (searchTotal output).getD applied
    ⟨true, applied, total, []⟩
  | none =>
    if hasErrMarker output then
      ⟨false, 0, 0, joinSemi (((splitLines output).filter hasErrMarker).take 3)⟩
    else
      ⟨false, 0, 0, "No output from plugparams".toList⟩

/-! ### ETA computation (test_all_plugins.py lines 328-332)

At the start of iteration `i` (1-based) over `n` subjects, with `elapsed`
seconds of batch wall-clock time so far. -/

def avg_time_per_plugin (elapsed : ℚ) (i : ℕ) : ℚ :=
  if 1 < i then elapsed / i else 0

def eta_seconds (elapsed : ℚ) (i n : ℕ) : ℚ :=
  if 0 < avg_time_per_plugin elapsed i then
    avg_time_per_plugin elapsed i * ((n - i : ℕ) : ℚ)
  else 0

/-- Modelled from the spec: "average elapsed time per completed subject so
far multiplied by the number of remaining subjects".  At the start of
iteration `i` the completed subjects number `i - 1` and the remaining
(untested) subjects number `n - i`. -/
def spec_eta (elapsed : ℚ) (i n : ℕ) : ℚ :=
  (elapsed / ((i - 1 : ℕ) : ℚ)) * ((n - i : ℕ) : ℚ)

/-! ### Orchestrator exit codes

test_all_plugins.py `main` (lines 277-381): missing binary → 1, empty
discovery → 1, otherwise 0 iff the failed map is empty.
run_measure.py `check_prereqs`/`main` (lines 43-57, 150-162, with `--out`
given): missing binary → exit 2, missing plugin path → exit 3, missing
expected output CSV → exit 4, otherwise 0. -/

def test_all_plugins_exit (binFound : Bool) (subjects : List (String × SubjBehavior))
    (skipErrors : Bool) : ℤ :=
  if binFound = false then 1
  else if subjects.isEmpty then 1
  else if (runBatch skipErrors subjects initBatch).failed.isEmpty then 0 else 1

def run_measure_exit (binExists pluginExists outProduced : Bool) : ℤ :=
  if binExists = false then 2
  else if pluginExists = false then 3
  else if outProduced = false then 4
  else 0

/-! ## Helper lemmas -/

lemma timeout_lt_elapsed (k : ℕ) : timeoutSecs < elapsedAt k ↔ 600 < k := by
  unfold timeoutSecs elapsedAt pollIntervalSecs
  rw [mul_one_div, lt_div_iff₀ (by norm_num : (0 : ℚ) < 2)]
  norm_num

lemma monitorGo_timeout (poll : ℕ → Option ℤ) (s : String) :
    ∀ fuel k, (∀ j, k ≤ j → j ≤ 601 → poll j = none) → k ≤ 601 → 601 < k + fuel →
      monitorGo poll s fuel k = ⟨true, false, some "Timeout"⟩ := by
  intro fuel
  induction fuel with
  | zero => intro k _ hk hlt; omega
  | succ fuel ih =>
    intro k h hk hlt
    have hrun : poll k = none := h k le_rfl hk
    rw [monitorGo, hrun]
    by_cases hgt : timeoutSecs < elapsedAt k
    · simp [hgt]
    · have hk600 : k ≤ 600 := by
        rcases Nat.lt_or_ge 600 k with h6 | h6
        · exact absurd ((timeout_lt_elapsed k).mpr h6) hgt
        · exact h6
      simp only [hgt, if_false]
      exact ih (k + 1) (fun j hj hj' => h j (by omega) hj') (by omega) (by omega)

lemma runBatch_nil (sk : Bool) (st : BatchState) : runBatch sk [] st = st := rfl

lemma runBatch_tested_skip (l : List (String × SubjBehavior)) :
    ∀ st, (runBatch true l st).tested = st.tested ++ l.map Prod.fst := by
  induction l with
  | nil => intro st; simp [runBatch]
  | cons x rest ih =>
    intro st
    obtain ⟨name, b⟩ := x
    rw [runBatch]
    by_cases hs : (test_plugin b.poll b.stderrText).success
    · simp only [hs, if_true]
      cases hldr : load_results b.fileRows with
      | some data => rw [ih]; simp
      | none => rw [ih]; simp
    · simp only [hs, Bool.false_eq_true, if_false, if_true]
      rw [ih]; simp

lemma runBatch_tested_halt (b : SubjBehavior)
    (hb : (test_plugin b.poll b.stderrText).success = false) :
    ∀ (pre : List (String × SubjBehavior)) (n : String)
      (post : List (String × SubjBehavior)) (st : BatchState),
      (∀ p ∈ pre, (test_plugin p.2.poll p.2.stderrText).success = true) →
      (runBatch false (pre ++ (n, b) :: post) st).tested =
        st.tested ++ pre.map Prod.fst ++ [n] := by
  intro pre
  induction pre with
  | nil =>
    intro n post st _
    rw [List.nil_append, runBatch]
    simp [hb]
  | cons q qre ih =>
    intro n post st hpre
    obtain ⟨qn, qb⟩ := q
    have hq : (test_plugin qb.poll qb.stderrText).success = true :=
      hpre (qn, qb) (List.mem_cons_self _ _)
    rw [List.cons_append, runBatch]
    simp only [hq, if_true]
    cases hldr : load_results qb.fileRows with
    | some data =>
      rw [ih n post _ (fun p hp => hpre p (List.mem_cons_of_mem _ hp))]
      simp
    | none =>
      rw [ih n post _ (fun p hp => hpre p (List.mem_cons_of_mem _ hp))]
      simp

/-- The key-multiset invariant of the batch loop: every tested subject is
recorded in exactly one of the two maps, counted with multiplicity. -/
lemma runBatch_count (sk : Bool) (l : List (String × SubjBehavior)) :
    ∀ st : BatchState,
      (∀ x, st.tested.count x =
        (st.successful.map Prod.fst).count x + (st.failed.map Prod.fst).count x) →
      ∀ x, (runBatch sk l st).tested.count x =
        ((runBatch sk l st).successful.map Prod.fst).count x +
        ((runBatch sk l st).failed.map Prod.fst).count x := by
  induction l with
  | nil => intro st hst; exact hst
  | cons p rest ih =>
    intro st hst x
    obtain ⟨name, b⟩ := p
    rw [runBatch]
    by_cases hs : (test_plugin b.poll b.stderrText).success
    · simp only [hs, if_true]
      cases hldr : load_results b.fileRows with
      | some data =>
        refine ih _ (fun y => ?_) x
        simp only [List.map_append, List.count_append, hst y]
        simp
        omega
      | none =>
        refine ih _ (fun y => ?_) x
        simp only [List.map_append, List.count_append, hst y]
        simp
        omega
    · simp only [hs, Bool.false_eq_true, if_false]
      have hst2 : ∀ y,
          (st.tested ++ [name]).count y =
          (st.successful.map Prod.fst).count y +
          ((st.failed ++ [(name, (test_plugin b.poll b.stderrText).errMsg.getD "")]).map
            Prod.fst).count y := by
        intro y
        simp only [List.map_append, List.count_append, hst y]
        simp
        omega
      cases sk with
      | true => simpa using ih _ (fun y => hst2 y) x
      | false => simpa using hst2 x

lemma runBatch_tested_sublist (sk : Bool) (l : List (String × SubjBehavior)) :
    ∀ st : BatchState, ∃ t, (runBatch sk l st).tested = st.tested ++ t ∧
      t.Sublist (l.map Prod.fst) := by
  induction l with
  | nil => intro st; exact ⟨[], by simp [runBatch], List.nil_sublist _⟩
  | cons p rest ih =>
    intro st
    obtain ⟨name, b⟩ := p
    rw [runBatch]
    by_cases hs : (test_plugin b.poll b.stderrText).success
    · simp only [hs, if_true]
      cases hldr : load_results b.fileRows with
      | some data =>
        obtain ⟨t, ht, hsub⟩ := ih
          { st with tested := st.tested ++ [name], successful := st.successful ++ [(name, data)] }
        refine ⟨name :: t, ?_, by simpa using hsub.cons₂ name⟩
        rw [ht]; simp
      | none =>
        obtain ⟨t, ht, hsub⟩ := ih
          { st with tested := st.tested ++ [name],
                    failed := st.failed ++ [(name, "Could not parse results")] }
        refine ⟨name :: t, ?_, by simpa using hsub.cons₂ name⟩
        rw [ht]; simp
    · simp only [hs, Bool.false_eq_true, if_false]
      cases sk with
      | true =>
        obtain ⟨t, ht, hsub⟩ := ih
          { st with tested := st.tested ++ [name],
                    failed := st.failed ++
                      [(name, (test_plugin b.poll b.stderrText).errMsg.getD "")] }
        refine ⟨name :: t, ?_, by simpa using hsub.cons₂ name⟩
        simp only [if_true]
        rw [ht]; simp
      | false =>
        refine ⟨[name], by simp, ?_⟩
        simp only [List.map_cons]
        exact (List.nil_sublist (rest.map Prod.fst)).cons₂ name

/-! ## Claims -/

/-- C1: for a subject whose benchmark process is still running when its
elapsed wall-clock time exceeds the 300-second timeout (here: still running
at every poll tick up to tick 601, the first tick past the timeout), the
supervisor kills the child (`killed = true`), returns the failure pair
`(False, "Timeout")`, and the batch loop records the subject in the failed
map with diagnostic exactly `"Timeout"`. -/
theorem timeout_subject_killed_and_recorded (poll : ℕ → Option ℤ)
    (s n : String) (sk : Bool) (fileRows : Option (List Row))
    (h : ∀ j, j ≤ 601 → poll j = none) :
    test_plugin poll s = ⟨true, false, some "Timeout"⟩ ∧
    (runBatch sk [(n, ⟨poll, s, fileRows⟩)] initBatch).failed = [(n, "Timeout")] := by
  have ht : test_plugin poll s = ⟨true, false, some "Timeout"⟩ :=
    monitorGo_timeout poll s monitorFuel 0 (fun j _ hj => h j hj) (by norm_num)
      (by norm_num [monitorFuel])
  refine ⟨ht, ?_⟩
  rw [runBatch]
  simp only [ht]
  cases sk <;> simp [runBatch, initBatch]

theorem timeout_subject_killed_and_recorded_witness :
    (∀ j, j ≤ 601 → (fun _ : ℕ => (none : Option ℤ)) j = none) ∧
    test_plugin (fun _ => none) "" = ⟨true, false, some "Timeout"⟩ ∧
    (runBatch true [("A", ⟨fun _ => none, "", none⟩)] initBatch).failed =
      [("A", "Timeout")] :=
  ⟨fun _ _ => rfl,
   timeout_subject_killed_and_recorded (fun _ => none) "" "A" true none (fun _ _ => rfl)⟩

/-! Concrete subject behaviours used by counterexamples and witnesses. -/

/-- Process exits 0 immediately but leaves no output file behind. -/
def okNoFile : SubjBehavior := ⟨fun _ => some 0, "", none⟩

/-- Process exits 1 immediately with stderr text `"boom"`. -/
def procFailB : SubjBehavior := ⟨fun _ => some 1, "boom", none⟩

/-- Process exits 0 immediately and writes one result row. -/
def okOneRow : SubjBehavior :=
  ⟨fun _ => some 0, "", some [⟨"p", "vst3", "2", "32f", 10, 2⟩]⟩

/-- C2 is false as stated: with skip-errors unset, subject "A" records the
batch's first Failed outcome (the parse-stage failure "Could not parse
results"), yet subject "B" is still tested afterwards — the loop does not
halt after the first Failed outcome. -/
theorem first_failed_outcome_does_not_always_halt :
    (runBatch false [("A", okNoFile), ("B", okNoFile)] initBatch).failed =
      [("A", "Could not parse results"), ("B", "Could not parse results")] ∧
    (runBatch false [("A", okNoFile), ("B", okNoFile)] initBatch).tested = ["A", "B"] :=
  ⟨rfl, rfl⟩

/-- C2 amended: with skip-errors unset the batch loop halts immediately after
the first process-level Failed outcome (a `test_plugin` failure), leaving the
remaining subjects untested; a parse-stage failure does not halt it.  With
skip-errors set, every subject of the list is tested. -/
theorem batch_halt_policy
    (pre : List (String × SubjBehavior)) (b : SubjBehavior) (n : String)
    (post : List (String × SubjBehavior)) (l : List (String × SubjBehavior))
    (hpre : ∀ p ∈ pre, (test_plugin p.2.poll p.2.stderrText).success = true)
    (hb : (test_plugin b.poll b.stderrText).success = false) :
    (runBatch false (pre ++ (n, b) :: post) initBatch).tested =
      pre.map Prod.fst ++ [n] ∧
    (runBatch true l initBatch).tested = l.map Prod.fst := by
  constructor
  · have := runBatch_tested_halt b hb pre n post initBatch hpre
    simpa [initBatch] using this
  · simpa [initBatch] using runBatch_tested_skip l initBatch

theorem batch_halt_policy_witness :
    (runBatch false [("A", okOneRow), ("B", procFailB), ("C", okOneRow)] initBatch).tested =
      ["A", "B"] ∧
    (runBatch true [("A", okOneRow), ("B", procFailB), ("C", okOneRow)] initBatch).tested =
      ["A", "B", "C"] :=
  batch_halt_policy [("A", okOneRow)] procFailB "B" [("C", okOneRow)]
    [("A", okOneRow), ("B", procFailB), ("C", okOneRow)]
    (fun p hp => by
      rcases List.mem_singleton.mp hp with h
      subst h
      rfl)
    rfl

/-- C3: for every subject whose run completes (it appears in `tested`, so it
was not skipped by an early halt), exactly one of membership in the
successful map and membership in the failed map holds at batch end — never
both, never neither.  Subject names are distinct, as discovery lists one
directory. -/
theorem completed_subject_in_exactly_one_map (sk : Bool)
    (subjects : List (String × SubjBehavior))
    (hnd : (subjects.map Prod.fst).Nodup) (name : String)
    (hmem : name ∈ (runBatch sk subjects initBatch).tested) :
    (name ∈ (runBatch sk subjects initBatch).successful.map Prod.fst ∧
     name ∉ (runBatch sk subjects initBatch).failed.map Prod.fst) ∨
    (name ∉ (runBatch sk subjects initBatch).successful.map Prod.fst ∧
     name ∈ (runBatch sk subjects initBatch).failed.map Prod.fst) := by
  have hcount := runBatch_count sk subjects initBatch (by intro x; simp [initBatch]) name
  obtain ⟨t, ht, hsub⟩ := runBatch_tested_sublist sk subjects initBatch
  have htested : (runBatch sk subjects initBatch).tested = t := by
    simpa [initBatch] using ht
  have hnodup : (runBatch sk subjects initBatch).tested.Nodup := by
    rw [htested]; exact hsub.nodup hnd
  have h1 : (runBatch sk subjects initBatch).tested.count name = 1 :=
    List.count_eq_one_of_mem hnodup hmem
  rw [h1] at hcount
  set a := ((runBatch sk subjects initBatch).successful.map Prod.fst).count name with hadef
  set b := ((runBatch sk subjects initBatch).failed.map Prod.fst).count name with hbdef
  have hab : (a = 1 ∧ b = 0) ∨ (a = 0 ∧ b = 1) := by omega
  rcases hab with ⟨ha1, hb0⟩ | ⟨ha0, hb1⟩
  · exact Or.inl ⟨List.count_pos_iff.mp (by omega), List.count_eq_zero.mp hb0⟩
  · exact Or.inr ⟨List.count_eq_zero.mp ha0, List.count_pos_iff.mp (by omega)⟩

theorem completed_subject_in_exactly_one_map_witness :
    (([("A", okOneRow), ("B", procFailB)].map Prod.fst).Nodup) ∧
    ("A" ∈ (runBatch true [("A", okOneRow), ("B", procFailB)] initBatch).tested) ∧
    (("A" ∈ (runBatch true [("A", okOneRow), ("B", procFailB)] initBatch).successful.map
        Prod.fst ∧
      "A" ∉ (runBatch true [("A", okOneRow), ("B", procFailB)] initBatch).failed.map
        Prod.fst) ∨
     ("A" ∉ (runBatch true [("A", okOneRow), ("B", procFailB)] initBatch).successful.map
        Prod.fst ∧
      "A" ∈ (runBatch true [("A", okOneRow), ("B", procFailB)] initBatch).failed.map
        Prod.fst)) :=
  ⟨by decide, by decide,
   completed_subject_in_exactly_one_map true [("A", okOneRow), ("B", procFailB)]
     (by decide) "A" (by decide)⟩

/-- C4: for a subject whose process exits 0, a missing output file or one
with zero data rows is recorded as Failed with diagnostic "Could not parse
results"; otherwise the summary carries the arithmetic means of
`dsp_load_pct` and `cv_pct` over all rows, and on the spec's example rows
(dsp 10, cv 2) and (dsp 20, cv 4) those means are 15 and 3. -/
theorem zero_rows_failed_else_mean_summary :
    (∀ (n : String) (sk : Bool) (b : SubjBehavior),
       (test_plugin b.poll b.stderrText).success = true →
       b.fileRows = none ∨ b.fileRows = some [] →
       (runBatch sk [(n, b)] initBatch).failed = [(n, "Could not parse results")] ∧
       (runBatch sk [(n, b)] initBatch).successful = []) ∧
    (∀ rows : List Row, rows ≠ [] →
       ∃ s, load_results (some rows) = some s ∧
         s.mean_dsp_load = (rows.map Row.dsp_load_pct).sum / rows.length ∧
         s.mean_cv = (rows.map Row.cv_pct).sum / rows.length ∧
         s.buffer_count = rows.length) ∧
    (load_results (some [⟨"p", "vst3", "2", "32f", 10, 2⟩,
        ⟨"p", "vst3", "2", "32f", 20, 4⟩])).map Summary.mean_dsp_load = some 15 ∧
    (load_results (some [⟨"p", "vst3", "2", "32f", 10, 2⟩,
        ⟨"p", "vst3", "2", "32f", 20, 4⟩])).map Summary.mean_cv = some 3 := by
  refine ⟨?_, ?_, by norm_num [load_results], by norm_num [load_results]⟩
  · intro n sk b hs hfr
    have hload : load_results b.fileRows = none := by
      rcases hfr with h | h <;> rw [h] <;> rfl
    rw [runBatch, runBatch]
    simp only [hs, if_true, hload]
    cases sk <;> simp [initBatch, runBatch]
  · intro rows hne
    match rows, hne with
    | r0 :: rest, _ => exact ⟨_, rfl, rfl, rfl, rfl⟩

theorem zero_rows_failed_else_mean_summary_witness :
    ((test_plugin okNoFile.poll okNoFile.stderrText).success = true ∧
     (okNoFile.fileRows = none ∨ okNoFile.fileRows = some []) ∧
     (runBatch true [("A", okNoFile)] initBatch).failed =
       [("A", "Could not parse results")] ∧
     (runBatch true [("A", okNoFile)] initBatch).successful = []) ∧
    (∃ s, load_results (some [(⟨"p", "vst3", "2", "32f", 10, 2⟩ : Row)]) = some s ∧
       s.mean_dsp_load = ([(⟨"p", "vst3", "2", "32f", 10, 2⟩ : Row)].map
         Row.dsp_load_pct).sum / ([(⟨"p", "vst3", "2", "32f", 10, 2⟩ : Row)].length) ∧
       s.mean_cv = ([(⟨"p", "vst3", "2", "32f", 10, 2⟩ : Row)].map Row.cv_pct).sum /
         ([(⟨"p", "vst3", "2", "32f", 10, 2⟩ : Row)].length) ∧
       s.buffer_count = [(⟨"p", "vst3", "2", "32f", 10, 2⟩ : Row)].length) :=
  ⟨⟨rfl, Or.inl rfl,
    zero_rows_failed_else_mean_summary.1 "A" true okNoFile rfl (Or.inl rfl)⟩,
   zero_rows_failed_else_mean_summary.2.1 [⟨"p", "vst3", "2", "32f", 10, 2⟩]
     (by decide)⟩

lemma mergeGo_some (h : List String) :
    ∀ (files : List (String × Option (List (List String)))) (acc : List (List String)),
      mergeGo files (some h) acc = acc ++ mergedDataRows files := by
  intro files
  induction files with
  | nil => intro acc; simp [mergeGo, mergedDataRows]
  | cons p rest ih =>
    intro acc
    obtain ⟨name, f⟩ := p
    match f with
    | none => rw [mergeGo, ih]; simp [mergedDataRows, dataRowsOf]
    | some [] => rw [mergeGo, ih]; simp [mergedDataRows, dataRowsOf]
    | some (r0 :: rs) =>
      rw [mergeGo, ih]
      simp [mergedDataRows, dataRowsOf]

lemma mergeGo_no_header :
    ∀ (files : List (String × Option (List (List String)))) (acc : List (List String)),
      firstHeaderRow files = none → mergeGo files none acc = acc := by
  intro files
  induction files with
  | nil => intro acc _; rfl
  | cons p rest ih =>
    intro acc hh
    obtain ⟨name, f⟩ := p
    match f with
    | none => rw [mergeGo]; exact ih acc (by rw [firstHeaderRow] at hh; exact hh)
    | some [] => rw [mergeGo]; exact ih acc (by rw [firstHeaderRow] at hh; exact hh)
    | some (r0 :: rs) => rw [firstHeaderRow] at hh; exact absurd hh (by simp)

lemma mergeGo_with_header :
    ∀ (files : List (String × Option (List (List String)))) (acc : List (List String))
      (h : List String), firstHeaderRow files = some h →
      mergeGo files none acc = acc ++ h :: mergedDataRows files := by
  intro files
  induction files with
  | nil => intro acc h hh; exact absurd hh (by rw [firstHeaderRow]; simp)
  | cons p rest ih =>
    intro acc h hh
    obtain ⟨name, f⟩ := p
    match f with
    | none =>
      rw [firstHeaderRow] at hh
      rw [mergeGo, ih acc h hh]
      simp [mergedDataRows, dataRowsOf]
    | some [] =>
      rw [firstHeaderRow] at hh
      rw [mergeGo, ih acc h hh]
      simp [mergedDataRows, dataRowsOf]
    | some (r0 :: rs) =>
      rw [firstHeaderRow] at hh
      have hh' : h = r0 ++ ["preset_name", "preset_category"] := by
        cases hh; rfl
      subst hh'
      rw [mergeGo, mergeGo_some]
      simp [mergedDataRows, dataRowsOf]

/-- Data-row count a single input file contributes at merge time: its row
count minus the header row for an existing non-empty file, zero otherwise. -/
def dataRowCount (f : Option (List (List String))) : ℕ := (dataRowsOf f).length

/-- C5: whenever at least one input file exists and is non-empty (so a merged
header exists), the merged table is that header followed by, for each input
file in order, its data rows each extended with the subject identifier and an
empty category cell; hence the merged data-row count is the sum of the input
files' data-row counts, where missing and empty files contribute zero rows
and raise no error. -/
theorem merged_rows_are_tagged_data_rows
    (files : List (String × Option (List (List String)))) (h : List String)
    (hh : firstHeaderRow files = some h) :
    merge_csv_results files = h :: mergedDataRows files ∧
    (merge_csv_results files).length = 1 + (files.map (fun p => dataRowCount p.2)).sum ∧
    dataRowsOf none = [] ∧ dataRowCount none = 0 ∧ dataRowCount (some []) = 0 := by
  have heq : merge_csv_results files = h :: mergedDataRows files :=
    mergeGo_with_header files [] h hh
  refine ⟨heq, ?_, rfl, rfl, rfl⟩
  rw [heq]
  simp only [List.length_cons, mergedDataRows, List.length_flatten, List.map_map]
  have hfun : (List.length ∘ fun p : String × Option (List (List String)) =>
      (dataRowsOf p.2).map (fun row => row ++ [p.1, ""])) =
      fun p => dataRowCount p.2 := by
    funext p
    simp [dataRowCount, Function.comp]
  rw [hfun]
  omega

/-- A concrete merge input: one missing file and two present ones. -/
def mergeFiles0 : List (String × Option (List (List String))) :=
  [("a", none), ("b", some [["h"], ["1"], ["2"]]), ("c", some [["h"], ["3"]])]

theorem merged_rows_are_tagged_data_rows_witness :
    firstHeaderRow mergeFiles0 = some ["h", "preset_name", "preset_category"] ∧
    (merge_csv_results mergeFiles0 =
        ["h", "preset_name", "preset_category"] :: mergedDataRows mergeFiles0 ∧
      (merge_csv_results mergeFiles0).length =
        1 + (mergeFiles0.map (fun p => dataRowCount p.2)).sum ∧
      dataRowsOf none = [] ∧ dataRowCount none = 0 ∧ dataRowCount (some []) = 0) :=
  ⟨rfl, merged_rows_are_tagged_data_rows mergeFiles0
    ["h", "preset_name", "preset_category"] rfl⟩

lemma firstHeaderRow_none_of_invalid :
    ∀ files : List (String × Option (List (List String))),
      (∀ p ∈ files, p.2 = none ∨ p.2 = some []) → firstHeaderRow files = none := by
  intro files
  induction files with
  | nil => intro _; rfl
  | cons p rest ih =>
    intro h
    obtain ⟨name, f⟩ := p
    have hrest : ∀ q ∈ rest, q.2 = none ∨ q.2 = some [] :=
      fun q hq => h q (List.mem_cons_of_mem _ hq)
    rcases h (name, f) (List.mem_cons_self _ _) with h1 | h1
    · have h1' : f = none := h1
      subst h1'
      rw [firstHeaderRow]
      exact ih hrest
    · have h1' : f = some [] := h1
      subst h1'
      rw [firstHeaderRow]
      exact ih hrest

/-- C10: when no merge input file both exists and is non-empty, the merged
output is still written as a file with zero rows (no header row), and the
reported "Total benchmark runs" count is `len(all_rows) - 1 = -1` rather
than 0. -/
theorem empty_merge_reports_minus_one
    (files : List (String × Option (List (List String))))
    (h : ∀ p ∈ files, p.2 = none ∨ p.2 = some []) :
    merge_csv_results files = [] ∧ totalBenchmarkRuns files = -1 := by
  have h0 : merge_csv_results files = [] :=
    mergeGo_no_header files [] (firstHeaderRow_none_of_invalid files h)
  refine ⟨h0, ?_⟩
  rw [totalBenchmarkRuns, h0]
  rfl

theorem empty_merge_reports_minus_one_witness :
    (∀ p ∈ ([("a", none), ("b", some [])] :
        List (String × Option (List (List String)))),
      p.2 = none ∨ p.2 = some []) ∧
    (merge_csv_results [("a", none), ("b", some [])] = [] ∧
     totalBenchmarkRuns [("a", none), ("b", some [])] = -1) :=
  ⟨by decide, empty_merge_reports_minus_one [("a", none), ("b", some [])] (by decide)⟩

lemma dropLit_self : ∀ p r : List Char, dropLit p (p ++ r) = some r := by
  intro p
  induction p with
  | nil => intro r; rfl
  | cons c cs ih => intro r; simp [dropLit, ih]

lemma takeWhile_digit_run (r : List Char) :
    ∀ ds : List Char, (∀ c ∈ ds, c.isDigit = true) →
      (ds ++ ' ' :: r).takeWhile Char.isDigit = ds ∧
      (ds ++ ' ' :: r).dropWhile Char.isDigit = ' ' :: r := by
  have hsp : (' ' : Char).isDigit = false := rfl
  intro ds
  induction ds with
  | nil => intro _; simp [List.takeWhile_cons, List.dropWhile_cons, hsp]
  | cons c cs ih =>
    intro h
    have hc : c.isDigit = true := h c (List.mem_cons_self _ _)
    have hrest := ih (fun x hx => h x (List.mem_cons_of_mem _ hx))
    simp [List.takeWhile_cons, List.dropWhile_cons, hc, hrest.1, hrest.2]

lemma matchAppliedAt_hit (ds r : List Char) (hne : ds ≠ [])
    (hd : ∀ c ∈ ds, c.isDigit = true) :
    matchAppliedAt (appliedPat ++ (ds ++ (appliedTail ++ r))) =
      some (digitsToNat ds) := by
  have htail : appliedTail ++ r = ' ' :: ("parameters".toList ++ r) := rfl
  have hbody := takeWhile_digit_run ("parameters".toList ++ r) ds hd
  have hemp : (ds ++ (appliedTail ++ r)).takeWhile Char.isDigit = ds := by
    rw [htail]; exact hbody.1
  have hdrop : (ds ++ (appliedTail ++ r)).dropWhile Char.isDigit = appliedTail ++ r := by
    rw [htail]; exact hbody.2
  have hne' : ds.isEmpty = false := by
    cases ds with
    | nil => exact absurd rfl hne
    | cons c cs => rfl
  simp only [matchAppliedAt, dropLit_self, hemp, hdrop, hne', Bool.false_eq_true,
    if_false]

lemma searchApplied_isSome_of_match :
    ∀ (pre s : List Char) (n : ℕ), matchAppliedAt s = some n →
      ∃ m, searchApplied (pre ++ s) = some m := by
  intro pre
  induction pre with
  | nil =>
    intro s n hm
    match s with
    | [] =>
      have h0 : matchAppliedAt ([] : List Char) = none := by decide
      rw [h0] at hm
      exact absurd hm (by simp)
    | c :: cs => exact ⟨n, by rw [List.nil_append, searchApplied, hm]⟩
  | cons p ps ih =>
    intro s n hm
    rw [List.cons_append, searchApplied]
    cases heq : matchAppliedAt (p :: (ps ++ s)) with
    | some k => exact ⟨k, rfl⟩
    | none =>
      obtain ⟨m, hm'⟩ := ih s n hm
      exact ⟨m, by rw [hm']⟩

/-- C6: verifier output containing a substring matching
`Applied <N> parameters` is classified a success; the extracted applied
count is the leftmost match's digit group, the total count is taken from a
`Total parameters in preset: <M>` match when present and defaults to the
applied count otherwise; on the spec's example text the outcome is
(applied = 12, total = 15, success = true). -/
theorem applied_pattern_classified_success :
    (∀ pre ds post : List Char, ds ≠ [] → (∀ c ∈ ds, c.isDigit = true) →
       (validate_preset
         (pre ++ (appliedPat ++ (ds ++ (appliedTail ++ post))))).success = true) ∧
    (∀ (out : List Char) (n : ℕ), searchApplied out = some n →
       validate_preset out = ⟨true, n, (searchTotal out).getD n, []⟩) ∧
    validate_preset
        ("Loaded\nApplied 12 parameters\nTotal parameters in preset: 15\n".toList) =
      ⟨true, 12, 15, []⟩ := by
  refine ⟨?_, ?_, by decide⟩
  · intro pre ds post hne hd
    obtain ⟨m, hm⟩ :=
      searchApplied_isSome_of_match pre _ _ (matchAppliedAt_hit ds post hne hd)
    rw [validate_preset, hm]
  · intro out n h
    rw [validate_preset, h]

theorem applied_pattern_classified_success_witness :
    (['1'] ≠ ([] : List Char)) ∧ (∀ c ∈ ['1'], c.isDigit = true) ∧
    (validate_preset
      ("x ".toList ++ (appliedPat ++ (['1'] ++ (appliedTail ++ " y".toList))))).success =
      true :=
  ⟨by decide, by decide,
   applied_pattern_classified_success.1 "x ".toList ['1'] " y".toList (by decide)
     (by decide)⟩

/-- C7: when the `Applied <N> parameters` pattern is absent the outcome is a
failure; with an `ERROR` or `Failed` marker present the diagnostic is the
first three marker-bearing lines joined by `"; "`, and with neither marker
the diagnostic is the generic no-output text `"No output from plugparams"`,
as on the spec's example. -/
theorem missing_pattern_classified_failure :
    (∀ out : List Char, searchApplied out = none →
       (validate_preset out).success = false ∧
       (hasErrMarker out = true →
         (validate_preset out).errMsg =
           joinSemi (((splitLines out).filter hasErrMarker).take 3)) ∧
       (hasErrMarker out = false →
         (validate_preset out).errMsg = "No output from plugparams".toList)) ∧
    validate_preset ("hello\nworld".toList) =
      ⟨false, 0, 0, "No output from plugparams".toList⟩ := by
  refine ⟨?_, by decide⟩
  intro out h
  cases hm : hasErrMarker out <;> simp [validate_preset, h, hm]

theorem missing_pattern_classified_failure_witness :
    searchApplied "a ERROR one\nok\nFailed two".toList = none ∧
    ((validate_preset "a ERROR one\nok\nFailed two".toList).success = false ∧
     (hasErrMarker "a ERROR one\nok\nFailed two".toList = true →
       (validate_preset "a ERROR one\nok\nFailed two".toList).errMsg =
         joinSemi (((splitLines "a ERROR one\nok\nFailed two".toList).filter
           hasErrMarker).take 3)) ∧
     (hasErrMarker "a ERROR one\nok\nFailed two".toList = false →
       (validate_preset "a ERROR one\nok\nFailed two".toList).errMsg =
         "No output from plugparams".toList)) :=
  ⟨by decide,
   missing_pattern_classified_failure.1 "a ERROR one\nok\nFailed two".toList (by decide)⟩

/-- C8 is false as stated: at the start of iteration 2 of 3, with 10 s
elapsed (one completed subject), the displayed ETA is `10 / 2 * 1 = 5`,
while the average elapsed time per completed subject times the remaining
count is `10 / 1 * 1 = 10` — the code divides by the current 1-based index,
not by the completed-subject count. -/
theorem eta_divides_by_current_index :
    eta_seconds 10 2 3 = 5 ∧ spec_eta 10 2 3 = 10 ∧
    eta_seconds 10 2 3 ≠ spec_eta 10 2 3 := by
  refine ⟨?_, ?_, ?_⟩ <;>
    norm_num [eta_seconds, avg_time_per_plugin, spec_eta]

/-- C8 amended: at the start of iteration `i > 1` over `n` subjects, the
displayed ETA equals the elapsed time divided by the current 1-based subject
index `i` (the completed count plus one), multiplied by the number of
remaining subjects `n - i`, whenever any time has elapsed; it is always
non-negative (and, being a rational, finite). -/
theorem eta_formula_and_nonneg (elapsed : ℚ) (i n : ℕ)
    (_h0 : 0 ≤ elapsed) (h1 : 1 < i) :
    0 ≤ eta_seconds elapsed i n ∧
    (0 < elapsed →
      eta_seconds elapsed i n = elapsed / (i : ℚ) * ((n - i : ℕ) : ℚ)) := by
  have hi : (0 : ℚ) < (i : ℚ) := by
    exact_mod_cast Nat.lt_of_lt_of_le Nat.zero_lt_one h1.le
  have havg : avg_time_per_plugin elapsed i = elapsed / i := by
    rw [avg_time_per_plugin, if_pos h1]
  constructor
  · rw [eta_seconds, havg]
    by_cases hp : 0 < elapsed / (i : ℚ)
    · rw [if_pos hp]
      exact mul_nonneg hp.le (Nat.cast_nonneg _)
    · rw [if_neg hp]
  · intro he
    have hp : 0 < elapsed / (i : ℚ) := div_pos he hi
    rw [eta_seconds, havg, if_pos hp]

theorem eta_formula_and_nonneg_witness :
    ((0 : ℚ) ≤ 10) ∧ (1 < 2) ∧
    (0 ≤ eta_seconds 10 2 3 ∧
     (0 < (10 : ℚ) →
       eta_seconds 10 2 3 = (10 : ℚ) / ((2 : ℕ) : ℚ) * (((3 - 2 : ℕ) : ℕ) : ℚ))) :=
  ⟨by norm_num, by norm_num, eta_formula_and_nonneg 10 2 3 (by norm_num) (by norm_num)⟩

/-- C9 is false as stated: in the batch orchestrator a missing measurement
binary, a failed discovery (no plugins found), a failed subject, and a
missing expected output file (recorded as "Could not parse results") all
exit with the same code 1 — the three fatal categories are not given
distinct exit codes there.  (Only run_measure.py uses distinct codes.) -/
theorem fatal_exit_codes_not_distinct :
    test_all_plugins_exit false [] false = 1 ∧
    test_all_plugins_exit true [] false = 1 ∧
    test_all_plugins_exit true [("A", procFailB)] false = 1 ∧
    test_all_plugins_exit true [("A", okNoFile)] false = 1 :=
  ⟨rfl, rfl, rfl, rfl⟩

/-- C9 amended: the batch orchestrator exits 0 when the failed map is empty
and 1 otherwise, and it also exits 1 (not a distinct code) for a missing
binary or an empty discovery; the single-run wrapper run_measure.py is the
tool that assigns distinct nonzero codes — 2 for a missing binary, 3 for a
missing plugin path, 4 for a missing expected output file, 0 on success. -/
theorem orchestrator_exit_codes (subjects : List (String × SubjBehavior))
    (sk : Bool) (hne : subjects ≠ []) :
    (test_all_plugins_exit true subjects sk =
      if (runBatch sk subjects initBatch).failed.isEmpty then 0 else 1) ∧
    (∀ l : List (String × SubjBehavior), ∀ b : Bool,
      test_all_plugins_exit false l b = 1) ∧
    (∀ p o : Bool, run_measure_exit false p o = 2) ∧
    (∀ o : Bool, run_measure_exit true false o = 3) ∧
    run_measure_exit true true false = 4 ∧
    run_measure_exit true true true = 0 := by
  refine ⟨?_, fun l b => rfl, fun p o => ?_, fun o => rfl, rfl, rfl⟩
  · have h1 : subjects.isEmpty = false := by
      cases subjects with
      | nil => exact absurd rfl hne
      | cons x xs => rfl
    rw [test_all_plugins_exit]
    simp [h1]
  · cases p <;> cases o <;> rfl

theorem orchestrator_exit_codes_witness :
    ([("A", procFailB)] ≠ ([] : List (String × SubjBehavior))) ∧
    ((test_all_plugins_exit true [("A", procFailB)] false =
        if (runBatch false [("A", procFailB)] initBatch).failed.isEmpty then 0
        else 1) ∧
     (∀ l : List (String × SubjBehavior), ∀ b : Bool,
       test_all_plugins_exit false l b = 1) ∧
     (∀ p o : Bool, run_measure_exit false p o = 2) ∧
     (∀ o : Bool, run_measure_exit true false o = 3) ∧
     run_measure_exit true true false = 4 ∧
     run_measure_exit true true true = 0) :=
  ⟨by simp, orchestrator_exit_codes [("A", procFailB)] false (by simp)⟩

end PlugPerf
